import Mathlib

/-!
Shallow embedding of `src/foremast/configs/prepare_configs.py`.

The module has two entry points:

* `process_git_configs(git_short, token_file)` reads a GitLab private token
  from a file, fetches `runway/application-master-{env}.json` for each of the
  eight fixed environments plus `runway/pipeline.json` from the `master`
  branch of a GitLab project, and attaches the latest `master` commit id to
  the pipeline entry under key `config_commit`.
* `process_runway_configs(runway_dir)` reads the same application files and
  `pipeline.json` from a local directory.

External effects are modelled explicitly: the local filesystem is a function
from a path to a read outcome, and the GitLab server is a record of response
functions.  JSON parsing itself is external (`json.loads`); a file's state is
therefore modelled as absent, present-but-invalid-JSON, or present with a
parsed JSON value.
-/

/-- Python JSON value as produced by `json.loads`: null, boolean, number,
string, array or object.  Objects keep insertion order, like Python dicts. -/
inductive Json where
  | null : Json
  | bool (b : Bool) : Json
  | num (n : Int) : Json
  | str (s : String) : Json
  | arr (elements : List Json) : Json
  | obj (fields : List (String × Json)) : Json

/-- Outcome of fetching/opening a tracked JSON file: the file may be absent
(`getfile` returned a falsy blob, or `open` raised `FileNotFoundError`),
present but not valid JSON (`json.loads` raises `ValueError`), or present
with contents that parse to a JSON value. -/
inductive FileResult where
  | absent : FileResult
  | invalid : FileResult
  | valid (j : Json) : FileResult

/-- Outcome of `open(path, 'rt')` followed by `.read()` on the token file:
success with the file's full text, `FileNotFoundError`, or any other raised
exception (e.g. `PermissionError`), carried with its description. -/
inductive OpenResult where
  | ok (contents : String) : OpenResult
  | fileNotFound : OpenResult
  | otherError (e : String) : OpenResult

/-- A fatal outcome: `systemExit msg` models `raise SystemExit(msg)`;
`uncaught e` models any other exception propagating out of the function. -/
inductive Fatal where
  | systemExit (msg : String) : Fatal
  | uncaught (e : String) : Fatal

/-- A network interaction with the GitLab server, in the order performed. -/
inductive NetCall where
  | getproject (gitShort : String) : NetCall
  | getfile (projectId : Nat) (path : String) (ref : String) : NetCall
  | getbranch (projectId : Nat) (ref : String) : NetCall

/-- Model of the GitLab server behind `gitlab.Gitlab(GIT_URL, token=token)`.
`projectId` models `server.getproject(git_short)['id']`; `getfile` models
`server.getfile(project_id, path, ref)` together with the base64 decode and
JSON parse of the returned blob; `branchCommitId` models
`server.getbranch(project_id, ref)['commit']['id']`. -/
structure GitlabServer where
  projectId : String → Nat
  getfile : Nat → String → String → FileResult
  branchCommitId : Nat → String → String

/-- The configuration bundle built by both functions: a Python dict from key
(environment name or `"pipeline"`) to JSON value, in insertion order. -/
abbrev Bundle := List (String × Json)

/-- Python dict assignment `d[k] = v`: replace the value in place if the key
exists, otherwise append the pair. -/
def setKey : Bundle → String → Json → Bundle
  | [], k, v => [(k, v)]
  | (k', v') :: rest, k, v =>
    if k' = k then (k, v) :: rest else (k', v') :: setKey rest k v

/-- Python dict lookup `d[k]` as an option (first matching key). -/
def lookupKey : Bundle → String → Option Json
  | [], _ => none
  | (k', v) :: rest, k => if k' = k then some v else lookupKey rest k

/-- The keys of a bundle, in order. -/
def keysOf (m : Bundle) : List String := m.map Prod.fst

/-- Read of a `collections.defaultdict(dict)` at a key: the stored value, or
the default `dict()` (the empty object) when the key is missing. -/
def getKeyD (m : Bundle) (k : String) : Json :=
  match lookupKey m k with
  | some v => v
  | none => .obj []

/-- Whether a JSON value is an object carrying the given key. -/
def hasField : Json → String → Bool
  | .obj fields, k => (lookupKey fields k).isSome
  | _, _ => false

/-- Field lookup on a JSON object; `none` on non-objects or missing keys. -/
def Json.getField : Json → String → Option Json
  | .obj fields, k => lookupKey fields k
  | _, _ => none

/-- Python item assignment `value[k] = v` on a JSON value: succeeds only on
objects; on any other value Python raises an uncaught `TypeError`. -/
def Json.setField : Json → String → Json → Except Fatal Json
  | .obj fields, k, v => .ok (.obj (setKey fields k v))
  | _, _, _ => .error (.uncaught "TypeError: value does not support item assignment")

/-- ENVS from the source: the fixed tuple of environment names. -/
def ENVS : List String :=
  ["build", "dev", "stage", "prod", "prodp", "stagepci", "prods", "stagesox"]

/-- JSON_ERROR_MSG from the source, already instantiated with the file name:
the Python template applies str.format to
'"\x7b0\x7d" appears to be invalid json. Please validate it with http://jsonlint.com.'. -/
def JSON_ERROR_MSG (filename : String) : String :=
  "\"" ++ filename ++ "\" appears to be invalid json. Please validate it with http://jsonlint.com."

/-- Local file name 'application-master-\x7benv\x7d.json'. -/
def appFileName (env : String) : String :=
  "application-master-" ++ env ++ ".json"

/-- Remote path 'runway/application-master-\x7benv\x7d.json'. -/
def gitAppPath (env : String) : String :=
  "runway/" ++ appFileName env

/-- Remote path of the pipeline file. -/
def pipelineGitPath : String := "runway/pipeline.json"

/-- Default pipeline configuration used when no pipeline.json exists. -/
def defaultPipeline : Json :=
  .obj [("env", .arr [.str "stage", .str "prod"])]

/-- Python str.strip() on the character list: drop whitespace from both ends. -/
def stripChars (cs : List Char) : List Char :=
  ((cs.dropWhile Char.isWhitespace).reverse.dropWhile Char.isWhitespace).reverse

/-- Python str.strip(): the string with leading and trailing whitespace removed. -/
def pyStrip (s : String) : String :=
  String.mk (stripChars s.data)

/-- Modelled from the spec: the token as the spec describes it, "a single
authentication token on its first line (whitespace-trimmed)" - the first line
of the file contents, stripped.  Used only to compare against the token the
code actually computes. -/
def specFirstLineToken (s : String) : String :=
  pyStrip (String.mk (s.data.takeWhile (fun c => c ≠ '\n')))

/-- Whether a string starts with '/'. -/
def startsWithSlash (s : String) : Bool :=
  match s.data with
  | [] => false
  | c :: _ => c == '/'

/-- Whether a string ends with '/'. -/
def endsWithSlash (s : String) : Bool :=
  match s.data.getLast? with
  | some c => c == '/'
  | none => false

/-- Python os.path.join(a, b) for the shapes used here: an absolute second
component wins; an empty first component yields the second; otherwise the two
are joined, inserting '/' unless the first already ends with one. -/
def pathJoin (a b : String) : String :=
  if startsWithSlash b then b
  else if a.data.isEmpty then b
  else if endsWithSlash a then a ++ b
  else a ++ "/" ++ b

/-- The per-environment fetch loop of process_git_configs (source lines
44-62): for each env fetch runway/application-master-\x7benv\x7d.json from
master; a falsy blob skips the env; invalid JSON raises SystemExit with
JSON_ERROR_MSG; valid JSON is stored under the env key.  Returns the
accumulated dict (or the fatal outcome) together with the getfile calls
made. -/
def gitEnvLoop (server : GitlabServer) (projectId : Nat) :
    List String → Bundle → Except Fatal Bundle × List NetCall
  | [], acc => (.ok acc, [])
  | env :: rest, acc =>
    let app_json := gitAppPath env
    let call := NetCall.getfile projectId app_json "master"
    match server.getfile projectId app_json "master" with
    | .absent =>
      let r := gitEnvLoop server projectId rest acc
      (r.1, call :: r.2)
    | .invalid => (.error (.systemExit (JSON_ERROR_MSG app_json)), [call])
    | .valid j =>
      let r := gitEnvLoop server projectId rest (setKey acc env j)
      (r.1, call :: r.2)

/-- The commit-id step of process_git_configs (source lines 84-86):
config_commit = server.getbranch(project_id, 'master')['commit']['id'];
app_configs['pipeline']['config_commit'] = config_commit.  The item
assignment raises an uncaught TypeError when the stored pipeline value is not
an object. -/
def gitCommitStep (server : GitlabServer) (projectId : Nat) (acc : Bundle) :
    Except Fatal Bundle :=
  let config_commit := server.branchCommitId projectId "master"
  match Json.setField (getKeyD acc "pipeline") "config_commit" (.str config_commit) with
  | .error f => .error f
  | .ok p => .ok (setKey acc "pipeline" p)

/-- The pipeline fetch of process_git_configs (source lines 64-86): fetch
runway/pipeline.json from master; a falsy blob stores the default pipeline;
invalid JSON raises SystemExit; valid JSON is stored; then the commit id is
fetched and injected. -/
def gitPipelineStep (server : GitlabServer) (projectId : Nat) (acc : Bundle) :
    Except Fatal Bundle × List NetCall :=
  let pcall := NetCall.getfile projectId pipelineGitPath "master"
  match server.getfile projectId pipelineGitPath "master" with
  | .invalid => (.error (.systemExit (JSON_ERROR_MSG pipelineGitPath)), [pcall])
  | .absent =>
    (gitCommitStep server projectId (setKey acc "pipeline" defaultPipeline),
     [pcall, NetCall.getbranch projectId "master"])
  | .valid j =>
    (gitCommitStep server projectId (setKey acc "pipeline" j),
     [pcall, NetCall.getbranch projectId "master"])

/-- The body of process_git_configs after the token has been read (source
lines 39-88): build the server, resolve the project id, run the environment
loop, then the pipeline step. -/
def gitMain (server : GitlabServer) (git_short : String) :
    Except Fatal Bundle × List NetCall :=
  let project_id := server.projectId git_short
  let r := gitEnvLoop server project_id ENVS []
  match r.1 with
  | .error f => (.error f, NetCall.getproject git_short :: r.2)
  | .ok acc =>
    let p := gitPipelineStep server project_id acc
    (p.1, NetCall.getproject git_short :: (r.2 ++ p.2))

/-- The observable outcome of one run of process_git_configs: the returned
bundle or fatal outcome, the network calls made in order, and the token
string passed to gitlab.Gitlab (none when the constructor was never
reached). -/
structure GitRun where
  result : Except Fatal Bundle
  calls : List NetCall
  usedToken : Option String

/-- process_git_configs(git_short, token_file).  `gitlabLib` models the
gitlab.Gitlab constructor: it maps the token to the server the library
yields; `readFile` models opening and reading a local file path.  A missing
token file raises SystemExit('GitLab private token file missing: ' +
token_file) before the server is built; any other open failure propagates
uncaught.  On success the token is the whole file contents stripped. -/
def process_git_configs (gitlabLib : String → GitlabServer)
    (git_short token_file : String) (readFile : String → OpenResult) : GitRun :=
  match readFile token_file with
  | .fileNotFound =>
    { result := .error (.systemExit ("GitLab private token file missing: " ++ token_file)),
      calls := [], usedToken := none }
  | .otherError e =>
    { result := .error (.uncaught e), calls := [], usedToken := none }
  | .ok contents =>
    let token := pyStrip contents
    let server := gitlabLib token
    let m := gitMain server git_short
    { result := m.1, calls := m.2, usedToken := some token }

/-- The per-environment read loop of process_runway_configs (source lines
104-119): for each env open \x7brunway_dir\x7d/application-master-\x7benv\x7d.json; a
FileNotFoundError skips the env; a ValueError raises SystemExit with
JSON_ERROR_MSG applied to the bare file name; valid JSON is stored under the
env key. -/
def runwayEnvLoop (fs : String → FileResult) (runway_dir : String) :
    List String → Bundle → Except Fatal Bundle
  | [], acc => .ok acc
  | env :: rest, acc =>
    let file_json := appFileName env
    let file_name := pathJoin runway_dir file_json
    match fs file_name with
    | .absent => runwayEnvLoop fs runway_dir rest acc
    | .invalid => .error (.systemExit (JSON_ERROR_MSG file_json))
    | .valid j => runwayEnvLoop fs runway_dir rest (setKey acc env j)

/-- process_runway_configs(runway_dir).  `fs` models the local filesystem:
path to read outcome.  After the environment loop, \x7brunway_dir\x7d/pipeline.json
is read; absence stores the default pipeline (a warning, not fatal); invalid
JSON raises SystemExit with JSON_ERROR_MSG applied to the joined path. -/
def process_runway_configs (fs : String → FileResult) (runway_dir : String) :
    Except Fatal Bundle :=
  match runwayEnvLoop fs runway_dir ENVS [] with
  | .error f => .error f
  | .ok acc =>
    let pipeline_file := pathJoin runway_dir "pipeline.json"
    match fs pipeline_file with
    | .valid j => .ok (setKey acc "pipeline" j)
    | .absent => .ok (setKey acc "pipeline" defaultPipeline)
    | .invalid => .error (.systemExit (JSON_ERROR_MSG pipeline_file))

/-- Whether a JSON value is an object. -/
def Json.isObj : Json → Bool
  | .obj _ => true
  | _ => false

/-- Test fixture: a server on which every file fetch reports absence. -/
def emptyServer : GitlabServer :=
  { projectId := fun _ => 42
    getfile := fun _ _ _ => .absent
    branchCommitId := fun _ _ => "deadbeef" }

/-- Test fixture: a gitlab library yielding `emptyServer` for any token. -/
def constLib : String → GitlabServer := fun _ => emptyServer

/-- Test fixture: reading any path yields a one-line token with padding. -/
def tokenOkRead : String → OpenResult := fun _ => .ok " secret\n"

/-- Test fixture: reading any path yields a two-line token file. -/
def multiLineRead : String → OpenResult := fun _ => .ok "abc \ndef\n"

/-- Test fixture: an empty local directory. -/
def emptyFs : String → FileResult := fun _ => .absent

/-- Test fixture: a directory holding only a valid application-master-prod.json. -/
def fsProd : String → FileResult := fun p =>
  if p = "application-master-prod.json" then .valid (.obj [("instance_type", .str "m5.large")])
  else .absent

/-- Test fixture: a directory where application-master-dev.json is invalid JSON. -/
def fsDevInvalid : String → FileResult := fun p =>
  if p = "d/application-master-dev.json" then .invalid else .absent

/-- Test fixture: a directory whose pipeline.json already contains a
config_commit key of its own. -/
def fsPipeWithCommit : String → FileResult := fun p =>
  if p = "pipeline.json" then .valid (.obj [("config_commit", .str "X")]) else .absent

/-- Test fixture: a server whose pipeline.json parses to a JSON list. -/
def listPipeServer : GitlabServer :=
  { projectId := fun _ => 1
    getfile := fun _ p _ =>
      if p = "runway/pipeline.json" then .valid (.arr [.str "stage"]) else .absent
    branchCommitId := fun _ _ => "c0ffee" }

/-- Test fixture: a server where application-master-stage.json is invalid JSON. -/
def invalidStageServer : GitlabServer :=
  { projectId := fun _ => 1
    getfile := fun _ p _ =>
      if p = "runway/application-master-stage.json" then .invalid else .absent
    branchCommitId := fun _ _ => "c0ffee" }

theorem lookupKey_setKey_self (m : Bundle) (k : String) (v : Json) :
    lookupKey (setKey m k v) k = some v := by
  induction m with
  | nil => simp [setKey, lookupKey]
  | cons p rest ih =>
    obtain ⟨k', v'⟩ := p
    by_cases h : k' = k
    · simp [setKey, lookupKey, h]
    · simp [setKey, lookupKey, h, ih]

theorem lookupKey_setKey_ne (m : Bundle) (k a : String) (v : Json) (h : k ≠ a) :
    lookupKey (setKey m k v) a = lookupKey m a := by
  induction m with
  | nil => simp [setKey, lookupKey, h]
  | cons p rest ih =>
    obtain ⟨k', v'⟩ := p
    by_cases hk : k' = k
    · subst hk
      simp [setKey, lookupKey, h]
    · simp [setKey, lookupKey, hk, ih]

theorem mem_keysOf_setKey (m : Bundle) (k a : String) (v : Json) :
    a ∈ keysOf (setKey m k v) ↔ a = k ∨ a ∈ keysOf m := by
  induction m with
  | nil => simp [setKey, keysOf]
  | cons p rest ih =>
    obtain ⟨k', v'⟩ := p
    by_cases hk : k' = k
    · subst hk
      simp [setKey, keysOf]
    · simp [setKey, keysOf, hk] at ih ⊢
      tauto

theorem self_mem_keysOf_setKey (m : Bundle) (k : String) (v : Json) :
    k ∈ keysOf (setKey m k v) := by
  rw [mem_keysOf_setKey]
  exact Or.inl rfl

theorem runwayEnvLoop_nil (fs : String → FileResult) (dir : String) (acc : Bundle) :
    runwayEnvLoop fs dir [] acc = .ok acc := rfl

theorem runwayEnvLoop_cons_absent (fs : String → FileResult) (dir env : String)
    (rest : List String) (acc : Bundle)
    (h : fs (pathJoin dir (appFileName env)) = .absent) :
    runwayEnvLoop fs dir (env :: rest) acc = runwayEnvLoop fs dir rest acc := by
  simp [runwayEnvLoop, h]

theorem runwayEnvLoop_cons_invalid (fs : String → FileResult) (dir env : String)
    (rest : List String) (acc : Bundle)
    (h : fs (pathJoin dir (appFileName env)) = .invalid) :
    runwayEnvLoop fs dir (env :: rest) acc =
      .error (.systemExit (JSON_ERROR_MSG (appFileName env))) := by
  simp [runwayEnvLoop, h]

theorem runwayEnvLoop_cons_valid (fs : String → FileResult) (dir env : String)
    (rest : List String) (acc : Bundle) (j : Json)
    (h : fs (pathJoin dir (appFileName env)) = .valid j) :
    runwayEnvLoop fs dir (env :: rest) acc = runwayEnvLoop fs dir rest (setKey acc env j) := by
  simp [runwayEnvLoop, h]

theorem runwayEnvLoop_keys (fs : String → FileResult) (dir : String) (envs : List String) :
    ∀ acc b, runwayEnvLoop fs dir envs acc = .ok b →
      ∀ a, a ∈ keysOf b → a ∈ keysOf acc ∨ a ∈ envs := by
  induction envs with
  | nil =>
    intro acc b h a ha
    rw [runwayEnvLoop_nil] at h
    cases h
    exact Or.inl ha
  | cons env rest ih =>
    intro acc b h a ha
    cases hfs : fs (pathJoin dir (appFileName env)) with
    | absent =>
      rw [runwayEnvLoop_cons_absent fs dir env rest acc hfs] at h
      rcases ih acc b h a ha with h' | h'
      · exact Or.inl h'
      · exact Or.inr (List.mem_cons_of_mem _ h')
    | invalid =>
      rw [runwayEnvLoop_cons_invalid fs dir env rest acc hfs] at h
      cases h
    | valid j =>
      rw [runwayEnvLoop_cons_valid fs dir env rest acc j hfs] at h
      rcases ih _ b h a ha with h' | h'
      · rcases (mem_keysOf_setKey acc env a j).mp h' with h'' | h''
        · exact Or.inr (h'' ▸ List.mem_cons_self env rest)
        · exact Or.inl h''
      · exact Or.inr (List.mem_cons_of_mem _ h')

theorem runwayEnvLoop_lookup_notmem (fs : String → FileResult) (dir e : String)
    (envs : List String) :
    ∀ acc b, e ∉ envs → runwayEnvLoop fs dir envs acc = .ok b →
      lookupKey b e = lookupKey acc e := by
  induction envs with
  | nil =>
    intro acc b _ h
    rw [runwayEnvLoop_nil] at h
    cases h
    rfl
  | cons env rest ih =>
    intro acc b hne h
    rw [List.mem_cons, not_or] at hne
    cases hfs : fs (pathJoin dir (appFileName env)) with
    | absent =>
      rw [runwayEnvLoop_cons_absent fs dir env rest acc hfs] at h
      exact ih acc b hne.2 h
    | invalid =>
      rw [runwayEnvLoop_cons_invalid fs dir env rest acc hfs] at h
      cases h
    | valid j =>
      rw [runwayEnvLoop_cons_valid fs dir env rest acc j hfs] at h
      rw [ih _ b hne.2 h]
      exact lookupKey_setKey_ne acc env e j (fun hh => hne.1 hh.symm)

theorem runwayEnvLoop_lookup_absent (fs : String → FileResult) (dir e : String)
    (envs : List String) :
    ∀ acc b, envs.Nodup → e ∈ envs → fs (pathJoin dir (appFileName e)) = .absent →
      runwayEnvLoop fs dir envs acc = .ok b → lookupKey b e = lookupKey acc e := by
  induction envs with
  | nil =>
    intro acc b _ hmem
    exact absurd hmem (List.not_mem_nil e)
  | cons env rest ih =>
    intro acc b hnd hmem hfse h
    rw [List.nodup_cons] at hnd
    rcases List.mem_cons.mp hmem with heq | hmem'
    · subst heq
      rw [runwayEnvLoop_cons_absent fs dir e rest acc hfse] at h
      exact runwayEnvLoop_lookup_notmem fs dir e rest acc b hnd.1 h
    · have hne : env ≠ e := fun hh => hnd.1 (hh ▸ hmem')
      cases hfs : fs (pathJoin dir (appFileName env)) with
      | absent =>
        rw [runwayEnvLoop_cons_absent fs dir env rest acc hfs] at h
        exact ih acc b hnd.2 hmem' hfse h
      | invalid =>
        rw [runwayEnvLoop_cons_invalid fs dir env rest acc hfs] at h
        cases h
      | valid j =>
        rw [runwayEnvLoop_cons_valid fs dir env rest acc j hfs] at h
        rw [ih _ b hnd.2 hmem' hfse h]
        exact lookupKey_setKey_ne acc env e j hne

theorem runwayEnvLoop_lookup_valid (fs : String → FileResult) (dir e : String)
    (envs : List String) (j : Json) :
    ∀ acc b, envs.Nodup → e ∈ envs → fs (pathJoin dir (appFileName e)) = .valid j →
      runwayEnvLoop fs dir envs acc = .ok b → lookupKey b e = some j := by
  induction envs with
  | nil =>
    intro acc b _ hmem
    exact absurd hmem (List.not_mem_nil e)
  | cons env rest ih =>
    intro acc b hnd hmem hfse h
    rw [List.nodup_cons] at hnd
    rcases List.mem_cons.mp hmem with heq | hmem'
    · subst heq
      rw [runwayEnvLoop_cons_valid fs dir e rest acc j hfse] at h
      rw [runwayEnvLoop_lookup_notmem fs dir e rest _ b hnd.1 h]
      exact lookupKey_setKey_self acc e j
    · have hne : env ≠ e := fun hh => hnd.1 (hh ▸ hmem')
      cases hfs : fs (pathJoin dir (appFileName env)) with
      | absent =>
        rw [runwayEnvLoop_cons_absent fs dir env rest acc hfs] at h
        exact ih acc b hnd.2 hmem' hfse h
      | invalid =>
        rw [runwayEnvLoop_cons_invalid fs dir env rest acc hfs] at h
        cases h
      | valid j' =>
        rw [runwayEnvLoop_cons_valid fs dir env rest acc j' hfs] at h
        exact ih _ b hnd.2 hmem' hfse h

theorem runwayEnvLoop_ok_of_no_invalid (fs : String → FileResult) (dir : String)
    (envs : List String) :
    ∀ acc, (∀ e, e ∈ envs → fs (pathJoin dir (appFileName e)) ≠ .invalid) →
      ∃ b, runwayEnvLoop fs dir envs acc = .ok b := by
  induction envs with
  | nil =>
    intro acc _
    exact ⟨acc, runwayEnvLoop_nil fs dir acc⟩
  | cons env rest ih =>
    intro acc hno
    cases hfs : fs (pathJoin dir (appFileName env)) with
    | absent =>
      obtain ⟨b, hb⟩ := ih acc (fun e he => hno e (List.mem_cons_of_mem _ he))
      exact ⟨b, by rw [runwayEnvLoop_cons_absent fs dir env rest acc hfs]; exact hb⟩
    | invalid =>
      exact absurd hfs (hno env (List.mem_cons_self env rest))
    | valid j =>
      obtain ⟨b, hb⟩ := ih (setKey acc env j) (fun e he => hno e (List.mem_cons_of_mem _ he))
      exact ⟨b, by rw [runwayEnvLoop_cons_valid fs dir env rest acc j hfs]; exact hb⟩

theorem runwayEnvLoop_error_of_invalid (fs : String → FileResult) (dir : String)
    (envs : List String) :
    ∀ acc, (∃ e, e ∈ envs ∧ fs (pathJoin dir (appFileName e)) = .invalid) →
      ∃ e, e ∈ envs ∧ fs (pathJoin dir (appFileName e)) = .invalid ∧
        runwayEnvLoop fs dir envs acc =
          .error (.systemExit (JSON_ERROR_MSG (appFileName e))) := by
  induction envs with
  | nil =>
    intro acc h
    obtain ⟨e, hmem, _⟩ := h
    exact absurd hmem (List.not_mem_nil e)
  | cons env rest ih =>
    intro acc h
    cases hfs : fs (pathJoin dir (appFileName env)) with
    | invalid =>
      exact ⟨env, List.mem_cons_self env rest, hfs,
        runwayEnvLoop_cons_invalid fs dir env rest acc hfs⟩
    | absent =>
      obtain ⟨e, hmem, hinv⟩ := h
      have hmem' : e ∈ rest := by
        rcases List.mem_cons.mp hmem with heq | h'
        · rw [heq, hfs] at hinv; cases hinv
        · exact h'
      obtain ⟨e', hm', hi', hr'⟩ := ih acc ⟨e, hmem', hinv⟩
      exact ⟨e', List.mem_cons_of_mem _ hm', hi',
        by rw [runwayEnvLoop_cons_absent fs dir env rest acc hfs]; exact hr'⟩
    | valid j =>
      obtain ⟨e, hmem, hinv⟩ := h
      have hmem' : e ∈ rest := by
        rcases List.mem_cons.mp hmem with heq | h'
        · rw [heq, hfs] at hinv; cases hinv
        · exact h'
      obtain ⟨e', hm', hi', hr'⟩ := ih (setKey acc env j) ⟨e, hmem', hinv⟩
      exact ⟨e', List.mem_cons_of_mem _ hm', hi',
        by rw [runwayEnvLoop_cons_valid fs dir env rest acc j hfs]; exact hr'⟩

theorem gitEnvLoop_fst_nil (server : GitlabServer) (pid : Nat) (acc : Bundle) :
    (gitEnvLoop server pid [] acc).1 = .ok acc := rfl

theorem gitEnvLoop_fst_cons_absent (server : GitlabServer) (pid : Nat) (env : String)
    (rest : List String) (acc : Bundle)
    (h : server.getfile pid (gitAppPath env) "master" = .absent) :
    (gitEnvLoop server pid (env :: rest) acc).1 = (gitEnvLoop server pid rest acc).1 := by
  simp [gitEnvLoop, h]

theorem gitEnvLoop_fst_cons_invalid (server : GitlabServer) (pid : Nat) (env : String)
    (rest : List String) (acc : Bundle)
    (h : server.getfile pid (gitAppPath env) "master" = .invalid) :
    (gitEnvLoop server pid (env :: rest) acc).1 =
      .error (.systemExit (JSON_ERROR_MSG (gitAppPath env))) := by
  simp [gitEnvLoop, h]

theorem gitEnvLoop_fst_cons_valid (server : GitlabServer) (pid : Nat) (env : String)
    (rest : List String) (acc : Bundle) (j : Json)
    (h : server.getfile pid (gitAppPath env) "master" = .valid j) :
    (gitEnvLoop server pid (env :: rest) acc).1 =
      (gitEnvLoop server pid rest (setKey acc env j)).1 := by
  simp [gitEnvLoop, h]

theorem gitEnvLoop_keys (server : GitlabServer) (pid : Nat) (envs : List String) :
    ∀ acc b, (gitEnvLoop server pid envs acc).1 = .ok b →
      ∀ a, a ∈ keysOf b → a ∈ keysOf acc ∨ a ∈ envs := by
  induction envs with
  | nil =>
    intro acc b h a ha
    rw [gitEnvLoop_fst_nil] at h
    cases h
    exact Or.inl ha
  | cons env rest ih =>
    intro acc b h a ha
    cases hfs : server.getfile pid (gitAppPath env) "master" with
    | absent =>
      rw [gitEnvLoop_fst_cons_absent server pid env rest acc hfs] at h
      rcases ih acc b h a ha with h' | h'
      · exact Or.inl h'
      · exact Or.inr (List.mem_cons_of_mem _ h')
    | invalid =>
      rw [gitEnvLoop_fst_cons_invalid server pid env rest acc hfs] at h
      cases h
    | valid j =>
      rw [gitEnvLoop_fst_cons_valid server pid env rest acc j hfs] at h
      rcases ih _ b h a ha with h' | h'
      · rcases (mem_keysOf_setKey acc env a j).mp h' with h'' | h''
        · exact Or.inr (h'' ▸ List.mem_cons_self env rest)
        · exact Or.inl h''
      · exact Or.inr (List.mem_cons_of_mem _ h')

theorem gitEnvLoop_lookup_notmem (server : GitlabServer) (pid : Nat) (e : String)
    (envs : List String) :
    ∀ acc b, e ∉ envs → (gitEnvLoop server pid envs acc).1 = .ok b →
      lookupKey b e = lookupKey acc e := by
  induction envs with
  | nil =>
    intro acc b _ h
    rw [gitEnvLoop_fst_nil] at h
    cases h
    rfl
  | cons env rest ih =>
    intro acc b hne h
    rw [List.mem_cons, not_or] at hne
    cases hfs : server.getfile pid (gitAppPath env) "master" with
    | absent =>
      rw [gitEnvLoop_fst_cons_absent server pid env rest acc hfs] at h
      exact ih acc b hne.2 h
    | invalid =>
      rw [gitEnvLoop_fst_cons_invalid server pid env rest acc hfs] at h
      cases h
    | valid j =>
      rw [gitEnvLoop_fst_cons_valid server pid env rest acc j hfs] at h
      rw [ih _ b hne.2 h]
      exact lookupKey_setKey_ne acc env e j (fun hh => hne.1 hh.symm)

theorem gitEnvLoop_lookup_absent (server : GitlabServer) (pid : Nat) (e : String)
    (envs : List String) :
    ∀ acc b, envs.Nodup → e ∈ envs → server.getfile pid (gitAppPath e) "master" = .absent →
      (gitEnvLoop server pid envs acc).1 = .ok b → lookupKey b e = lookupKey acc e := by
  induction envs with
  | nil =>
    intro acc b _ hmem
    exact absurd hmem (List.not_mem_nil e)
  | cons env rest ih =>
    intro acc b hnd hmem hfse h
    rw [List.nodup_cons] at hnd
    rcases List.mem_cons.mp hmem with heq | hmem'
    · subst heq
      rw [gitEnvLoop_fst_cons_absent server pid e rest acc hfse] at h
      exact gitEnvLoop_lookup_notmem server pid e rest acc b hnd.1 h
    · have hne : env ≠ e := fun hh => hnd.1 (hh ▸ hmem')
      cases hfs : server.getfile pid (gitAppPath env) "master" with
      | absent =>
        rw [gitEnvLoop_fst_cons_absent server pid env rest acc hfs] at h
        exact ih acc b hnd.2 hmem' hfse h
      | invalid =>
        rw [gitEnvLoop_fst_cons_invalid server pid env rest acc hfs] at h
        cases h
      | valid j =>
        rw [gitEnvLoop_fst_cons_valid server pid env rest acc j hfs] at h
        rw [ih _ b hnd.2 hmem' hfse h]
        exact lookupKey_setKey_ne acc env e j hne

theorem gitEnvLoop_lookup_valid (server : GitlabServer) (pid : Nat) (e : String)
    (envs : List String) (j : Json) :
    ∀ acc b, envs.Nodup → e ∈ envs → server.getfile pid (gitAppPath e) "master" = .valid j →
      (gitEnvLoop server pid envs acc).1 = .ok b → lookupKey b e = some j := by
  induction envs with
  | nil =>
    intro acc b _ hmem
    exact absurd hmem (List.not_mem_nil e)
  | cons env rest ih =>
    intro acc b hnd hmem hfse h
    rw [List.nodup_cons] at hnd
    rcases List.mem_cons.mp hmem with heq | hmem'
    · subst heq
      rw [gitEnvLoop_fst_cons_valid server pid e rest acc j hfse] at h
      rw [gitEnvLoop_lookup_notmem server pid e rest _ b hnd.1 h]
      exact lookupKey_setKey_self acc e j
    · have hne : env ≠ e := fun hh => hnd.1 (hh ▸ hmem')
      cases hfs : server.getfile pid (gitAppPath env) "master" with
      | absent =>
        rw [gitEnvLoop_fst_cons_absent server pid env rest acc hfs] at h
        exact ih acc b hnd.2 hmem' hfse h
      | invalid =>
        rw [gitEnvLoop_fst_cons_invalid server pid env rest acc hfs] at h
        cases h
      | valid j' =>
        rw [gitEnvLoop_fst_cons_valid server pid env rest acc j' hfs] at h
        exact ih _ b hnd.2 hmem' hfse h

theorem gitEnvLoop_ok_of_no_invalid (server : GitlabServer) (pid : Nat)
    (envs : List String) :
    ∀ acc, (∀ e, e ∈ envs → server.getfile pid (gitAppPath e) "master" ≠ .invalid) →
      ∃ b, (gitEnvLoop server pid envs acc).1 = .ok b := by
  induction envs with
  | nil =>
    intro acc _
    exact ⟨acc, gitEnvLoop_fst_nil server pid acc⟩
  | cons env rest ih =>
    intro acc hno
    cases hfs : server.getfile pid (gitAppPath env) "master" with
    | absent =>
      obtain ⟨b, hb⟩ := ih acc (fun e he => hno e (List.mem_cons_of_mem _ he))
      exact ⟨b, by rw [gitEnvLoop_fst_cons_absent server pid env rest acc hfs]; exact hb⟩
    | invalid =>
      exact absurd hfs (hno env (List.mem_cons_self env rest))
    | valid j =>
      obtain ⟨b, hb⟩ := ih (setKey acc env j) (fun e he => hno e (List.mem_cons_of_mem _ he))
      exact ⟨b, by rw [gitEnvLoop_fst_cons_valid server pid env rest acc j hfs]; exact hb⟩

theorem gitEnvLoop_error_of_invalid (server : GitlabServer) (pid : Nat)
    (envs : List String) :
    ∀ acc, (∃ e, e ∈ envs ∧ server.getfile pid (gitAppPath e) "master" = .invalid) →
      ∃ e, e ∈ envs ∧ server.getfile pid (gitAppPath e) "master" = .invalid ∧
        (gitEnvLoop server pid envs acc).1 =
          .error (.systemExit (JSON_ERROR_MSG (gitAppPath e))) := by
  induction envs with
  | nil =>
    intro acc h
    obtain ⟨e, hmem, _⟩ := h
    exact absurd hmem (List.not_mem_nil e)
  | cons env rest ih =>
    intro acc h
    cases hfs : server.getfile pid (gitAppPath env) "master" with
    | invalid =>
      exact ⟨env, List.mem_cons_self env rest, hfs,
        gitEnvLoop_fst_cons_invalid server pid env rest acc hfs⟩
    | absent =>
      obtain ⟨e, hmem, hinv⟩ := h
      have hmem' : e ∈ rest := by
        rcases List.mem_cons.mp hmem with heq | h'
        · rw [heq, hfs] at hinv; cases hinv
        · exact h'
      obtain ⟨e', hm', hi', hr'⟩ := ih acc ⟨e, hmem', hinv⟩
      exact ⟨e', List.mem_cons_of_mem _ hm', hi',
        by rw [gitEnvLoop_fst_cons_absent server pid env rest acc hfs]; exact hr'⟩
    | valid j =>
      obtain ⟨e, hmem, hinv⟩ := h
      have hmem' : e ∈ rest := by
        rcases List.mem_cons.mp hmem with heq | h'
        · rw [heq, hfs] at hinv; cases hinv
        · exact h'
      obtain ⟨e', hm', hi', hr'⟩ := ih (setKey acc env j) ⟨e, hmem', hinv⟩
      exact ⟨e', List.mem_cons_of_mem _ hm', hi',
        by rw [gitEnvLoop_fst_cons_valid server pid env rest acc j hfs]; exact hr'⟩

theorem ENVS_nodup : ENVS.Nodup := by decide

theorem pipeline_not_mem_ENVS : "pipeline" ∉ ENVS := by decide

theorem getKeyD_setKey_self (m : Bundle) (k : String) (v : Json) :
    getKeyD (setKey m k v) k = v := by
  simp [getKeyD, lookupKey_setKey_self]

theorem runway_loop_error (fs : String → FileResult) (dir : String) (f : Fatal)
    (h : runwayEnvLoop fs dir ENVS [] = .error f) :
    process_runway_configs fs dir = .error f := by
  simp [process_runway_configs, h]

theorem runway_ok_pipeline_absent (fs : String → FileResult) (dir : String) (acc : Bundle)
    (hl : runwayEnvLoop fs dir ENVS [] = .ok acc)
    (hp : fs (pathJoin dir "pipeline.json") = .absent) :
    process_runway_configs fs dir = .ok (setKey acc "pipeline" defaultPipeline) := by
  simp [process_runway_configs, hl, hp]

theorem runway_ok_pipeline_valid (fs : String → FileResult) (dir : String) (acc : Bundle)
    (j : Json) (hl : runwayEnvLoop fs dir ENVS [] = .ok acc)
    (hp : fs (pathJoin dir "pipeline.json") = .valid j) :
    process_runway_configs fs dir = .ok (setKey acc "pipeline" j) := by
  simp [process_runway_configs, hl, hp]

theorem runway_pipeline_invalid (fs : String → FileResult) (dir : String) (acc : Bundle)
    (hl : runwayEnvLoop fs dir ENVS [] = .ok acc)
    (hp : fs (pathJoin dir "pipeline.json") = .invalid) :
    process_runway_configs fs dir =
      .error (.systemExit (JSON_ERROR_MSG (pathJoin dir "pipeline.json"))) := by
  simp [process_runway_configs, hl, hp]

theorem runway_ok_inv (fs : String → FileResult) (dir : String) (b : Bundle)
    (h : process_runway_configs fs dir = .ok b) :
    ∃ acc, runwayEnvLoop fs dir ENVS [] = .ok acc ∧
      ((fs (pathJoin dir "pipeline.json") = .absent ∧ b = setKey acc "pipeline" defaultPipeline) ∨
        (∃ j, fs (pathJoin dir "pipeline.json") = .valid j ∧ b = setKey acc "pipeline" j)) := by
  cases hl : runwayEnvLoop fs dir ENVS [] with
  | error f =>
    rw [runway_loop_error fs dir f hl] at h
    cases h
  | ok acc =>
    cases hp : fs (pathJoin dir "pipeline.json") with
    | absent =>
      rw [runway_ok_pipeline_absent fs dir acc hl hp] at h
      exact ⟨acc, rfl, Or.inl ⟨rfl, (Except.ok.injEq _ _).mp h |>.symm⟩⟩
    | invalid =>
      rw [runway_pipeline_invalid fs dir acc hl hp] at h
      cases h
    | valid j =>
      rw [runway_ok_pipeline_valid fs dir acc j hl hp] at h
      exact ⟨acc, rfl, Or.inr ⟨j, rfl, (Except.ok.injEq _ _).mp h |>.symm⟩⟩

theorem gitCommitStep_obj (server : GitlabServer) (pid : Nat) (acc : Bundle)
    (fields : List (String × Json)) (hP : getKeyD acc "pipeline" = .obj fields) :
    gitCommitStep server pid acc = .ok (setKey acc "pipeline"
      (.obj (setKey fields "config_commit" (.str (server.branchCommitId pid "master"))))) := by
  unfold gitCommitStep
  rw [hP]
  simp [Json.setField]

theorem gitCommitStep_nonobj (server : GitlabServer) (pid : Nat) (acc : Bundle)
    (h : (getKeyD acc "pipeline").isObj = false) :
    gitCommitStep server pid acc =
      .error (.uncaught "TypeError: value does not support item assignment") := by
  unfold gitCommitStep
  cases hP : getKeyD acc "pipeline" with
  | obj fields => rw [hP] at h; simp [Json.isObj] at h
  | null => simp [Json.setField]
  | bool b => simp [Json.setField]
  | num n => simp [Json.setField]
  | str s => simp [Json.setField]
  | arr elements => simp [Json.setField]

theorem gitCommitStep_ok_inv (server : GitlabServer) (pid : Nat) (acc b : Bundle)
    (h : gitCommitStep server pid acc = .ok b) :
    ∃ fields, getKeyD acc "pipeline" = .obj fields ∧
      b = setKey acc "pipeline"
        (.obj (setKey fields "config_commit" (.str (server.branchCommitId pid "master")))) := by
  cases hP : (getKeyD acc "pipeline").isObj with
  | false => rw [gitCommitStep_nonobj server pid acc hP] at h; cases h
  | true =>
    cases hO : getKeyD acc "pipeline" with
    | obj fields =>
      rw [gitCommitStep_obj server pid acc fields hO] at h
      exact ⟨fields, rfl, ((Except.ok.injEq _ _).mp h).symm⟩
    | null => rw [hO] at hP; simp [Json.isObj] at hP
    | bool b' => rw [hO] at hP; simp [Json.isObj] at hP
    | num n => rw [hO] at hP; simp [Json.isObj] at hP
    | str s => rw [hO] at hP; simp [Json.isObj] at hP
    | arr elements => rw [hO] at hP; simp [Json.isObj] at hP

theorem gitPipelineStep_fst_invalid (server : GitlabServer) (pid : Nat) (acc : Bundle)
    (h : server.getfile pid pipelineGitPath "master" = .invalid) :
    (gitPipelineStep server pid acc).1 =
      .error (.systemExit (JSON_ERROR_MSG pipelineGitPath)) := by
  simp [gitPipelineStep, h]

theorem gitPipelineStep_fst_absent (server : GitlabServer) (pid : Nat) (acc : Bundle)
    (h : server.getfile pid pipelineGitPath "master" = .absent) :
    (gitPipelineStep server pid acc).1 =
      gitCommitStep server pid (setKey acc "pipeline" defaultPipeline) := by
  simp [gitPipelineStep, h]

theorem gitPipelineStep_fst_valid (server : GitlabServer) (pid : Nat) (acc : Bundle)
    (j : Json) (h : server.getfile pid pipelineGitPath "master" = .valid j) :
    (gitPipelineStep server pid acc).1 =
      gitCommitStep server pid (setKey acc "pipeline" j) := by
  simp [gitPipelineStep, h]

theorem gitMain_fst_loop_error (server : GitlabServer) (g : String) (f : Fatal)
    (h : (gitEnvLoop server (server.projectId g) ENVS []).1 = .error f) :
    (gitMain server g).1 = .error f := by
  simp [gitMain, h]

theorem gitMain_fst_loop_ok (server : GitlabServer) (g : String) (acc : Bundle)
    (h : (gitEnvLoop server (server.projectId g) ENVS []).1 = .ok acc) :
    (gitMain server g).1 = (gitPipelineStep server (server.projectId g) acc).1 := by
  simp [gitMain, h]

theorem pgc_token_missing (gitlabLib : String → GitlabServer) (g t : String)
    (readFile : String → OpenResult) (h : readFile t = .fileNotFound) :
    process_git_configs gitlabLib g t readFile =
      { result := .error (.systemExit ("GitLab private token file missing: " ++ t)),
        calls := [], usedToken := none } := by
  simp [process_git_configs, h]

theorem pgc_token_other (gitlabLib : String → GitlabServer) (g t e : String)
    (readFile : String → OpenResult) (h : readFile t = .otherError e) :
    process_git_configs gitlabLib g t readFile =
      { result := .error (.uncaught e), calls := [], usedToken := none } := by
  simp [process_git_configs, h]

theorem pgc_token_ok (gitlabLib : String → GitlabServer) (g t s : String)
    (readFile : String → OpenResult) (h : readFile t = .ok s) :
    process_git_configs gitlabLib g t readFile =
      { result := (gitMain (gitlabLib (pyStrip s)) g).1,
        calls := (gitMain (gitlabLib (pyStrip s)) g).2,
        usedToken := some (pyStrip s) } := by
  simp [process_git_configs, h]

theorem gitMain_fst_ok_inv (server : GitlabServer) (g : String) (b : Bundle)
    (h : (gitMain server g).1 = .ok b) :
    ∃ acc pobj fields,
      (gitEnvLoop server (server.projectId g) ENVS []).1 = .ok acc ∧
      ((server.getfile (server.projectId g) pipelineGitPath "master" = .absent ∧
          pobj = defaultPipeline) ∨
        server.getfile (server.projectId g) pipelineGitPath "master" = .valid pobj) ∧
      pobj = .obj fields ∧
      b = setKey (setKey acc "pipeline" pobj) "pipeline"
        (.obj (setKey fields "config_commit"
          (.str (server.branchCommitId (server.projectId g) "master")))) := by
  cases hl : (gitEnvLoop server (server.projectId g) ENVS []).1 with
  | error f =>
    rw [gitMain_fst_loop_error server g f hl] at h
    cases h
  | ok acc =>
    rw [gitMain_fst_loop_ok server g acc hl] at h
    cases hp : server.getfile (server.projectId g) pipelineGitPath "master" with
    | invalid =>
      rw [gitPipelineStep_fst_invalid server _ acc hp] at h
      cases h
    | absent =>
      rw [gitPipelineStep_fst_absent server _ acc hp] at h
      obtain ⟨fields, hF, hb⟩ := gitCommitStep_ok_inv _ _ _ _ h
      rw [getKeyD_setKey_self] at hF
      exact ⟨acc, defaultPipeline, fields, rfl, Or.inl ⟨rfl, rfl⟩, hF, by rw [hb, hF]⟩
    | valid j =>
      rw [gitPipelineStep_fst_valid server _ acc j hp] at h
      obtain ⟨fields, hF, hb⟩ := gitCommitStep_ok_inv _ _ _ _ h
      rw [getKeyD_setKey_self] at hF
      exact ⟨acc, j, fields, rfl, Or.inr rfl, hF, by rw [hb, hF]⟩

/-- C6: in process_git_configs, a missing token file terminates fatally with
the message 'GitLab private token file missing: ' followed by the path, and
no network call (getproject, getfile or getbranch) is made before that
termination. -/
theorem claim6_missing_token_fatal_before_network
    (gitlabLib : String → GitlabServer) (git_short token_file : String)
    (readFile : String → OpenResult) (h : readFile token_file = .fileNotFound) :
    (process_git_configs gitlabLib git_short token_file readFile).result =
      .error (.systemExit ("GitLab private token file missing: " ++ token_file)) ∧
    (process_git_configs gitlabLib git_short token_file readFile).calls = [] := by
  rw [pgc_token_missing gitlabLib git_short token_file readFile h]
  exact ⟨rfl, rfl⟩

/-- Witness for C6: on a reader that raises FileNotFoundError the function
exits with the templated message having made no network call. -/
theorem claim6_witness :
    (process_git_configs constLib "grp/app" "my/token" (fun _ => .fileNotFound)).result =
      .error (.systemExit ("GitLab private token file missing: " ++ "my/token")) ∧
    (process_git_configs constLib "grp/app" "my/token" (fun _ => .fileNotFound)).calls = [] :=
  claim6_missing_token_fatal_before_network constLib "grp/app" "my/token"
    (fun _ => .fileNotFound) rfl

/-- C10: only FileNotFoundError is converted to the templated fatal message;
any other failure opening or reading the token file propagates as a raw
uncaught exception whose outcome is not a SystemExit message at all. -/
theorem claim10_other_open_error_propagates
    (gitlabLib : String → GitlabServer) (git_short token_file e : String)
    (readFile : String → OpenResult) (h : readFile token_file = .otherError e) :
    (process_git_configs gitlabLib git_short token_file readFile).result =
      .error (.uncaught e) ∧
    ∀ m, (process_git_configs gitlabLib git_short token_file readFile).result ≠
      .error (.systemExit m) := by
  rw [pgc_token_other gitlabLib git_short token_file e readFile h]
  refine ⟨rfl, fun m hm => ?_⟩
  simp at hm

/-- Witness for C10: a PermissionError-style failure propagates uncaught. -/
theorem claim10_witness :
    (process_git_configs constLib "grp/app" "my/token"
        (fun _ => .otherError "PermissionError")).result =
      .error (.uncaught "PermissionError") ∧
    ∀ m, (process_git_configs constLib "grp/app" "my/token"
        (fun _ => .otherError "PermissionError")).result ≠ .error (.systemExit m) :=
  claim10_other_open_error_propagates constLib "grp/app" "my/token" "PermissionError"
    (fun _ => .otherError "PermissionError") rfl

/-- C7 counterexample: with a readable two-line token file 'abc \ndef\n' the
token handed to gitlab.Gitlab is the whole contents stripped, 'abc \ndef',
not the first line trimmed, 'abc'; so the token does not equal the first
line of the file with surrounding whitespace trimmed. -/
theorem claim7_counterexample :
    (process_git_configs constLib "grp/app" "token.txt" multiLineRead).usedToken =
      some "abc \ndef" ∧
    specFirstLineToken "abc \ndef\n" = "abc" ∧
    (process_git_configs constLib "grp/app" "token.txt" multiLineRead).usedToken ≠
      some (specFirstLineToken "abc \ndef\n") := by
  refine ⟨rfl, rfl, ?_⟩
  intro h
  simp only [process_git_configs, multiLineRead] at h
  exact absurd ((Option.some.injEq _ _).mp h) (by decide)

/-- C7 amended: for every readable token file, the token used for the remote
service equals the entire file contents with surrounding whitespace
stripped (read().strip()), which coincides with the first line only for
single-line files. -/
theorem claim7_token_is_whole_contents_stripped
    (gitlabLib : String → GitlabServer) (git_short token_file s : String)
    (readFile : String → OpenResult) (h : readFile token_file = .ok s) :
    (process_git_configs gitlabLib git_short token_file readFile).usedToken =
      some (pyStrip s) := by
  rw [pgc_token_ok gitlabLib git_short token_file s readFile h]

/-- Witness for the amended C7: on the two-line file the token is the whole
stripped contents. -/
theorem claim7_witness :
    (process_git_configs constLib "grp/app" "token.txt" multiLineRead).usedToken =
      some (pyStrip "abc \ndef\n") :=
  claim7_token_is_whole_contents_stripped constLib "grp/app" "token.txt" "abc \ndef\n"
    multiLineRead rfl

/-- C2: for both operations, on every successful return every key of the
bundle other than 'pipeline' belongs to the fixed eight-element ENVS set,
and the 'pipeline' key is present. -/
theorem claim2_bundle_keys
    (gitlabLib : String → GitlabServer) (git_short token_file : String)
    (readFile : String → OpenResult) (fs : String → FileResult) (dir : String)
    (b b' : Bundle) :
    ((process_git_configs gitlabLib git_short token_file readFile).result = .ok b →
      (∀ k, k ∈ keysOf b → k = "pipeline" ∨ k ∈ ENVS) ∧ "pipeline" ∈ keysOf b) ∧
    (process_runway_configs fs dir = .ok b' →
      (∀ k, k ∈ keysOf b' → k = "pipeline" ∨ k ∈ ENVS) ∧ "pipeline" ∈ keysOf b') := by
  constructor
  · intro hok
    cases hr : readFile token_file with
    | fileNotFound =>
      rw [pgc_token_missing gitlabLib git_short token_file readFile hr] at hok
      simp at hok
    | otherError e =>
      rw [pgc_token_other gitlabLib git_short token_file e readFile hr] at hok
      simp at hok
    | ok s =>
      rw [pgc_token_ok gitlabLib git_short token_file s readFile hr] at hok
      simp only at hok
      obtain ⟨acc, pobj, fields, hl, _, _, hb⟩ :=
        gitMain_fst_ok_inv (gitlabLib (pyStrip s)) git_short b hok
      subst hb
      constructor
      · intro k hk
        rcases (mem_keysOf_setKey _ _ _ _).mp hk with h1 | h1
        · exact Or.inl h1
        rcases (mem_keysOf_setKey _ _ _ _).mp h1 with h2 | h2
        · exact Or.inl h2
        rcases gitEnvLoop_keys (gitlabLib (pyStrip s))
            ((gitlabLib (pyStrip s)).projectId git_short) ENVS [] acc hl k h2 with h3 | h3
        · simp [keysOf] at h3
        · exact Or.inr h3
      · exact self_mem_keysOf_setKey _ _ _
  · intro hok
    obtain ⟨acc, hl, hcase⟩ := runway_ok_inv fs dir b' hok
    have hkeys : ∀ p : Json, (∀ k, k ∈ keysOf (setKey acc "pipeline" p) →
        k = "pipeline" ∨ k ∈ ENVS) ∧ "pipeline" ∈ keysOf (setKey acc "pipeline" p) := by
      intro p
      constructor
      · intro k hk
        rcases (mem_keysOf_setKey _ _ _ _).mp hk with h1 | h1
        · exact Or.inl h1
        rcases runwayEnvLoop_keys fs dir ENVS [] acc hl k h1 with h3 | h3
        · simp [keysOf] at h3
        · exact Or.inr h3
      · exact self_mem_keysOf_setKey _ _ _
    rcases hcase with ⟨_, hb⟩ | ⟨j, _, hb⟩
    · subst hb
      exact hkeys defaultPipeline
    · subst hb
      exact hkeys j

/-- Witness for C2: concrete runs of both operations where the hypotheses
hold by computation. -/
theorem claim2_witness :
    ((∀ k, k ∈ keysOf [("pipeline",
        Json.obj [("env", Json.arr [Json.str "stage", Json.str "prod"]),
          ("config_commit", Json.str "deadbeef")])] → k = "pipeline" ∨ k ∈ ENVS) ∧
      "pipeline" ∈ keysOf [("pipeline",
        Json.obj [("env", Json.arr [Json.str "stage", Json.str "prod"]),
          ("config_commit", Json.str "deadbeef")])]) ∧
    ((∀ k, k ∈ keysOf [("prod", Json.obj [("instance_type", Json.str "m5.large")]),
        ("pipeline", Json.obj [("env", Json.arr [Json.str "stage", Json.str "prod"])])] →
        k = "pipeline" ∨ k ∈ ENVS) ∧
      "pipeline" ∈ keysOf [("prod", Json.obj [("instance_type", Json.str "m5.large")]),
        ("pipeline", Json.obj [("env", Json.arr [Json.str "stage", Json.str "prod"])])]) :=
  ⟨(claim2_bundle_keys constLib "grp/app" "token.txt" tokenOkRead fsProd ""
      [("pipeline", Json.obj [("env", Json.arr [Json.str "stage", Json.str "prod"]),
        ("config_commit", Json.str "deadbeef")])]
      [("prod", Json.obj [("instance_type", Json.str "m5.large")]),
        ("pipeline", Json.obj [("env", Json.arr [Json.str "stage", Json.str "prod"])])]).1 rfl,
   (claim2_bundle_keys constLib "grp/app" "token.txt" tokenOkRead fsProd ""
      [("pipeline", Json.obj [("env", Json.arr [Json.str "stage", Json.str "prod"]),
        ("config_commit", Json.str "deadbeef")])]
      [("prod", Json.obj [("instance_type", Json.str "m5.large")]),
        ("pipeline", Json.obj [("env", Json.arr [Json.str "stage", Json.str "prod"])])]).2 rfl⟩

/-- C4: in process_runway_configs, when pipeline.json does not exist in the
directory (and no application file is malformed, so the run is not aborted
earlier), the function still returns a bundle, whose pipeline entry equals
exactly the default object with env ['stage', 'prod'] and carries no
config_commit key. -/
theorem claim4_local_default_pipeline (fs : String → FileResult) (dir : String)
    (hp : fs (pathJoin dir "pipeline.json") = .absent)
    (hnoinv : ∀ e, e ∈ ENVS → fs (pathJoin dir (appFileName e)) ≠ .invalid) :
    ∃ b, process_runway_configs fs dir = .ok b ∧
      lookupKey b "pipeline" =
        some (Json.obj [("env", Json.arr [Json.str "stage", Json.str "prod"])]) ∧
      Json.getField (Json.obj [("env", Json.arr [Json.str "stage", Json.str "prod"])])
        "config_commit" = none := by
  obtain ⟨acc, hacc⟩ := runwayEnvLoop_ok_of_no_invalid fs dir ENVS [] hnoinv
  exact ⟨setKey acc "pipeline" defaultPipeline,
    runway_ok_pipeline_absent fs dir acc hacc hp,
    lookupKey_setKey_self acc "pipeline" defaultPipeline, rfl⟩

/-- Witness for C4: the empty directory yields the defaulted pipeline. -/
theorem claim4_witness :
    ∃ b, process_runway_configs emptyFs "" = .ok b ∧
      lookupKey b "pipeline" =
        some (Json.obj [("env", Json.arr [Json.str "stage", Json.str "prod"])]) ∧
      Json.getField (Json.obj [("env", Json.arr [Json.str "stage", Json.str "prod"])])
        "config_commit" = none :=
  claim4_local_default_pipeline emptyFs "" rfl (fun _ _ h => by cases h)

/-- C8 counterexample: a local pipeline.json whose own content contains a
config_commit key yields a bundle whose pipeline entry does carry
config_commit, so the pipeline entry is not config_commit-free on every
successful local run. -/
theorem claim8_counterexample :
    process_runway_configs fsPipeWithCommit "" =
      .ok [("pipeline", Json.obj [("config_commit", Json.str "X")])] ∧
    hasField (Json.obj [("config_commit", Json.str "X")]) "config_commit" = true :=
  ⟨rfl, rfl⟩

/-- C8 amended: process_runway_configs never adds a config_commit field: on
every successful return the pipeline entry carries config_commit only if the
loaded pipeline.json content itself carried it (the defaulted pipeline never
does). -/
theorem claim8_no_config_commit_added (fs : String → FileResult) (dir : String)
    (b : Bundle) (hok : process_runway_configs fs dir = .ok b) :
    ∃ p, lookupKey b "pipeline" = some p ∧
      (hasField p "config_commit" = true →
        ∃ j, fs (pathJoin dir "pipeline.json") = .valid j ∧
          hasField j "config_commit" = true) := by
  obtain ⟨acc, hl, hcase⟩ := runway_ok_inv fs dir b hok
  rcases hcase with ⟨hp, hb⟩ | ⟨j, hp, hb⟩
  · subst hb
    exact ⟨defaultPipeline, lookupKey_setKey_self _ _ _,
      fun hf => absurd hf (by decide)⟩
  · subst hb
    exact ⟨j, lookupKey_setKey_self _ _ _, fun hf => ⟨j, hp, hf⟩⟩

/-- Witness for the amended C8: a run with the default pipeline whose entry
indeed has no config_commit of its own. -/
theorem claim8_witness :
    ∃ p, lookupKey [("pipeline",
        Json.obj [("env", Json.arr [Json.str "stage", Json.str "prod"])])] "pipeline" =
      some p ∧
      (hasField p "config_commit" = true →
        ∃ j, emptyFs (pathJoin "" "pipeline.json") = .valid j ∧
          hasField j "config_commit" = true) :=
  claim8_no_config_commit_added emptyFs "" _ rfl

/-- C1: in process_git_configs, on every successful return the pipeline
entry has config_commit set to the commit id resolved for master, and when
the remote pipeline.json is absent the pipeline entry equals exactly the
default object with env ['stage', 'prod'] extended with that commit id. -/
theorem claim1_config_commit_always_set
    (gitlabLib : String → GitlabServer) (git_short token_file s : String)
    (readFile : String → OpenResult) (b : Bundle)
    (hs : readFile token_file = .ok s)
    (hok : (process_git_configs gitlabLib git_short token_file readFile).result = .ok b) :
    ∃ p, lookupKey b "pipeline" = some p ∧
      Json.getField p "config_commit" =
        some (.str ((gitlabLib (pyStrip s)).branchCommitId
          ((gitlabLib (pyStrip s)).projectId git_short) "master")) ∧
      ((gitlabLib (pyStrip s)).getfile ((gitlabLib (pyStrip s)).projectId git_short)
          pipelineGitPath "master" = .absent →
        p = Json.obj [("env", Json.arr [Json.str "stage", Json.str "prod"]),
          ("config_commit", Json.str ((gitlabLib (pyStrip s)).branchCommitId
            ((gitlabLib (pyStrip s)).projectId git_short) "master"))]) := by
  rw [pgc_token_ok gitlabLib git_short token_file s readFile hs] at hok
  obtain ⟨acc, pobj, fields, hl, hdisj, hobj, hb⟩ :=
    gitMain_fst_ok_inv (gitlabLib (pyStrip s)) git_short b hok
  subst hb
  refine ⟨_, lookupKey_setKey_self _ _ _, ?_, ?_⟩
  · simp [Json.getField, lookupKey_setKey_self]
  · intro habs
    rcases hdisj with ⟨_, hP⟩ | hval
    · subst hP
      have hf : fields = [("env", Json.arr [Json.str "stage", Json.str "prod"])] := by
        have h' := hobj
        simp [defaultPipeline] at h'
        exact h'.symm
      subst hf
      rfl
    · rw [habs] at hval
      cases hval

/-- Witness for C1: concrete run where pipeline.json is absent and the
pipeline entry is the default extended with the resolved commit id. -/
theorem claim1_witness :
    ∃ p, lookupKey [("pipeline",
        Json.obj [("env", Json.arr [Json.str "stage", Json.str "prod"]),
          ("config_commit", Json.str "deadbeef")])] "pipeline" = some p ∧
      Json.getField p "config_commit" = some (Json.str "deadbeef") ∧
      ((constLib (pyStrip " secret\n")).getfile
          ((constLib (pyStrip " secret\n")).projectId "grp/app") pipelineGitPath "master" =
            .absent →
        p = Json.obj [("env", Json.arr [Json.str "stage", Json.str "prod"]),
          ("config_commit", Json.str "deadbeef")]) :=
  claim1_config_commit_always_set constLib "grp/app" "token.txt" " secret\n" tokenOkRead
    [("pipeline", Json.obj [("env", Json.arr [Json.str "stage", Json.str "prod"]),
      ("config_commit", Json.str "deadbeef")])] rfl rfl

/-- C3: for each of the eight environment names, in both modes: an absent
application-master file leaves the environment key absent from the bundle,
and a present valid file makes the bundle entry equal the parsed value. -/
theorem claim3_env_entries
    (gitlabLib : String → GitlabServer) (git_short token_file s : String)
    (readFile : String → OpenResult) (fs : String → FileResult) (dir e : String)
    (j : Json) (b b' : Bundle) (he : e ∈ ENVS) :
    (readFile token_file = .ok s →
      (process_git_configs gitlabLib git_short token_file readFile).result = .ok b →
      (((gitlabLib (pyStrip s)).getfile ((gitlabLib (pyStrip s)).projectId git_short)
          (gitAppPath e) "master" = .absent → lookupKey b e = none) ∧
        ((gitlabLib (pyStrip s)).getfile ((gitlabLib (pyStrip s)).projectId git_short)
          (gitAppPath e) "master" = .valid j → lookupKey b e = some j))) ∧
    (process_runway_configs fs dir = .ok b' →
      ((fs (pathJoin dir (appFileName e)) = .absent → lookupKey b' e = none) ∧
        (fs (pathJoin dir (appFileName e)) = .valid j → lookupKey b' e = some j))) := by
  have hpe : ("pipeline" : String) ≠ e :=
    fun hh => pipeline_not_mem_ENVS (hh ▸ he)
  constructor
  · intro hs hok
    rw [pgc_token_ok gitlabLib git_short token_file s readFile hs] at hok
    obtain ⟨acc, pobj, fields, hl, _, _, hb⟩ :=
      gitMain_fst_ok_inv (gitlabLib (pyStrip s)) git_short b hok
    subst hb
    rw [lookupKey_setKey_ne _ _ _ _ hpe, lookupKey_setKey_ne _ _ _ _ hpe]
    constructor
    · intro habs
      rw [gitEnvLoop_lookup_absent (gitlabLib (pyStrip s))
        ((gitlabLib (pyStrip s)).projectId git_short) e ENVS [] acc
        ENVS_nodup he habs hl]
      rfl
    · intro hval
      exact gitEnvLoop_lookup_valid (gitlabLib (pyStrip s))
        ((gitlabLib (pyStrip s)).projectId git_short) e ENVS j [] acc
        ENVS_nodup he hval hl
  · intro hok
    obtain ⟨acc, hl, hcase⟩ := runway_ok_inv fs dir b' hok
    have hmain : ((fs (pathJoin dir (appFileName e)) = .absent →
        lookupKey acc e = none) ∧
      (fs (pathJoin dir (appFileName e)) = .valid j → lookupKey acc e = some j)) := by
      constructor
      · intro habs
        rw [runwayEnvLoop_lookup_absent fs dir e ENVS [] acc ENVS_nodup he habs hl]
        rfl
      · intro hval
        exact runwayEnvLoop_lookup_valid fs dir e ENVS j [] acc ENVS_nodup he hval hl
    rcases hcase with ⟨_, hb⟩ | ⟨j', _, hb⟩
    · subst hb
      rw [lookupKey_setKey_ne _ _ _ _ hpe]
      exact hmain
    · subst hb
      rw [lookupKey_setKey_ne _ _ _ _ hpe]
      exact hmain

/-- Witness for C3: with prod absent remotely the returned bundle has no
prod key; with a valid local application-master-prod.json the bundle's prod
entry equals the parsed value. -/
theorem claim3_witness :
    lookupKey [("pipeline",
      Json.obj [("env", Json.arr [Json.str "stage", Json.str "prod"]),
        ("config_commit", Json.str "deadbeef")])] "prod" = none ∧
    lookupKey [("prod", Json.obj [("instance_type", Json.str "m5.large")]),
      ("pipeline", Json.obj [("env", Json.arr [Json.str "stage", Json.str "prod"])])] "prod" =
      some (Json.obj [("instance_type", Json.str "m5.large")]) :=
  ⟨((claim3_env_entries constLib "grp/app" "token.txt" " secret\n" tokenOkRead fsProd "" "prod"
      (Json.obj [("instance_type", Json.str "m5.large")])
      [("pipeline", Json.obj [("env", Json.arr [Json.str "stage", Json.str "prod"]),
        ("config_commit", Json.str "deadbeef")])]
      [("prod", Json.obj [("instance_type", Json.str "m5.large")]),
        ("pipeline", Json.obj [("env", Json.arr [Json.str "stage", Json.str "prod"])])]
      (by decide)).1 rfl rfl).1 rfl,
   ((claim3_env_entries constLib "grp/app" "token.txt" " secret\n" tokenOkRead fsProd "" "prod"
      (Json.obj [("instance_type", Json.str "m5.large")])
      [("pipeline", Json.obj [("env", Json.arr [Json.str "stage", Json.str "prod"]),
        ("config_commit", Json.str "deadbeef")])]
      [("prod", Json.obj [("instance_type", Json.str "m5.large")]),
        ("pipeline", Json.obj [("env", Json.arr [Json.str "stage", Json.str "prod"])])]
      (by decide)).2 rfl).2 rfl⟩

/-- C9: in process_git_configs, a remote pipeline.json parsing to a
non-object JSON value makes the config_commit injection raise an uncaught
TypeError rather than the templated SystemExit message, so a successful
return requires the pipeline value to be absent or a JSON object. -/
theorem claim9_nonobject_pipeline
    (gitlabLib : String → GitlabServer) (git_short token_file s : String)
    (readFile : String → OpenResult) (j : Json)
    (hs : readFile token_file = .ok s) :
    ((∀ e, e ∈ ENVS → (gitlabLib (pyStrip s)).getfile
        ((gitlabLib (pyStrip s)).projectId git_short) (gitAppPath e) "master" ≠ .invalid) →
      (gitlabLib (pyStrip s)).getfile ((gitlabLib (pyStrip s)).projectId git_short)
        pipelineGitPath "master" = .valid j →
      j.isObj = false →
      (process_git_configs gitlabLib git_short token_file readFile).result =
        .error (.uncaught "TypeError: value does not support item assignment") ∧
      ∀ m, (process_git_configs gitlabLib git_short token_file readFile).result ≠
        .error (.systemExit m)) ∧
    (∀ b : Bundle,
      (process_git_configs gitlabLib git_short token_file readFile).result = .ok b →
      (gitlabLib (pyStrip s)).getfile ((gitlabLib (pyStrip s)).projectId git_short)
        pipelineGitPath "master" = .absent ∨
      ∃ fields, (gitlabLib (pyStrip s)).getfile ((gitlabLib (pyStrip s)).projectId git_short)
        pipelineGitPath "master" = .valid (.obj fields)) := by
  have hres : (process_git_configs gitlabLib git_short token_file readFile).result =
      (gitMain (gitlabLib (pyStrip s)) git_short).1 :=
    congrArg GitRun.result (pgc_token_ok gitlabLib git_short token_file s readFile hs)
  constructor
  · intro hno hpv hnotobj
    obtain ⟨acc, hacc⟩ := gitEnvLoop_ok_of_no_invalid (gitlabLib (pyStrip s))
      ((gitlabLib (pyStrip s)).projectId git_short) ENVS [] hno
    have herr : (process_git_configs gitlabLib git_short token_file readFile).result =
        .error (.uncaught "TypeError: value does not support item assignment") := by
      rw [hres, gitMain_fst_loop_ok (gitlabLib (pyStrip s)) git_short acc hacc,
        gitPipelineStep_fst_valid (gitlabLib (pyStrip s))
          ((gitlabLib (pyStrip s)).projectId git_short) acc j hpv]
      apply gitCommitStep_nonobj
      rw [getKeyD_setKey_self]
      exact hnotobj
    refine ⟨herr, fun m hm => ?_⟩
    rw [herr] at hm
    simp at hm
  · intro b hok
    rw [hres] at hok
    obtain ⟨acc, pobj, fields, hl, hdisj, hobj, _⟩ :=
      gitMain_fst_ok_inv (gitlabLib (pyStrip s)) git_short b hok
    rcases hdisj with ⟨habs, _⟩ | hval
    · exact Or.inl habs
    · rw [hobj] at hval
      exact Or.inr ⟨fields, hval⟩

/-- Witness for C9: a server whose pipeline.json parses to a JSON list makes
the run fail with the uncaught TypeError, never a SystemExit. -/
theorem claim9_witness :
    (process_git_configs (fun _ => listPipeServer) "grp/app" "token.txt" tokenOkRead).result =
      .error (.uncaught "TypeError: value does not support item assignment") ∧
    ∀ m, (process_git_configs (fun _ => listPipeServer) "grp/app" "token.txt"
      tokenOkRead).result ≠ .error (.systemExit m) :=
  (claim9_nonobject_pipeline (fun _ => listPipeServer) "grp/app" "token.txt" " secret\n"
    tokenOkRead (Json.arr [Json.str "stage"]) rfl).1
    (fun e he => by fin_cases he <;> exact fun h => FileResult.noConfusion h)
    rfl rfl

/-- C5: in both modes, whenever some tracked file (an application-master
file of a listed environment, or pipeline.json) has contents that fail to
parse as JSON, the operation ends in SystemExit whose message is
JSON_ERROR_MSG applied to the name of an offending file, and no bundle is
returned. -/
theorem claim5_invalid_json_fatal
    (gitlabLib : String → GitlabServer) (git_short token_file s : String)
    (readFile : String → OpenResult) (fs : String → FileResult) (dir : String) :
    (((∃ e, e ∈ ENVS ∧ fs (pathJoin dir (appFileName e)) = .invalid) ∨
        fs (pathJoin dir "pipeline.json") = .invalid) →
      ∃ name, ((∃ e, e ∈ ENVS ∧ name = appFileName e ∧
            fs (pathJoin dir (appFileName e)) = .invalid) ∨
          (name = pathJoin dir "pipeline.json" ∧
            fs (pathJoin dir "pipeline.json") = .invalid)) ∧
        process_runway_configs fs dir = .error (.systemExit (JSON_ERROR_MSG name))) ∧
    (readFile token_file = .ok s →
      ((∃ e, e ∈ ENVS ∧ (gitlabLib (pyStrip s)).getfile
            ((gitlabLib (pyStrip s)).projectId git_short) (gitAppPath e) "master" =
              .invalid) ∨
        (gitlabLib (pyStrip s)).getfile ((gitlabLib (pyStrip s)).projectId git_short)
          pipelineGitPath "master" = .invalid) →
      ∃ name, ((∃ e, e ∈ ENVS ∧ name = gitAppPath e ∧
            (gitlabLib (pyStrip s)).getfile ((gitlabLib (pyStrip s)).projectId git_short)
              (gitAppPath e) "master" = .invalid) ∨
          (name = pipelineGitPath ∧
            (gitlabLib (pyStrip s)).getfile ((gitlabLib (pyStrip s)).projectId git_short)
              pipelineGitPath "master" = .invalid)) ∧
        (process_git_configs gitlabLib git_short token_file readFile).result =
          .error (.systemExit (JSON_ERROR_MSG name))) := by
  constructor
  · intro h
    by_cases hex : ∃ e, e ∈ ENVS ∧ fs (pathJoin dir (appFileName e)) = .invalid
    · obtain ⟨e, he, hinv, hloop⟩ := runwayEnvLoop_error_of_invalid fs dir ENVS [] hex
      exact ⟨appFileName e, Or.inl ⟨e, he, rfl, hinv⟩, runway_loop_error fs dir _ hloop⟩
    · have hp : fs (pathJoin dir "pipeline.json") = .invalid := by
        rcases h with h | h
        · exact absurd h hex
        · exact h
      have hno : ∀ e, e ∈ ENVS → fs (pathJoin dir (appFileName e)) ≠ .invalid :=
        fun e he hinv => hex ⟨e, he, hinv⟩
      obtain ⟨acc, hacc⟩ := runwayEnvLoop_ok_of_no_invalid fs dir ENVS [] hno
      exact ⟨pathJoin dir "pipeline.json", Or.inr ⟨rfl, hp⟩,
        runway_pipeline_invalid fs dir acc hacc hp⟩
  · intro hs h
    have hres : (process_git_configs gitlabLib git_short token_file readFile).result =
        (gitMain (gitlabLib (pyStrip s)) git_short).1 :=
      congrArg GitRun.result (pgc_token_ok gitlabLib git_short token_file s readFile hs)
    by_cases hex : ∃ e, e ∈ ENVS ∧ (gitlabLib (pyStrip s)).getfile
        ((gitlabLib (pyStrip s)).projectId git_short) (gitAppPath e) "master" = .invalid
    · obtain ⟨e, he, hinv, hloop⟩ := gitEnvLoop_error_of_invalid (gitlabLib (pyStrip s))
        ((gitlabLib (pyStrip s)).projectId git_short) ENVS [] hex
      refine ⟨gitAppPath e, Or.inl ⟨e, he, rfl, hinv⟩, ?_⟩
      rw [hres]
      exact gitMain_fst_loop_error (gitlabLib (pyStrip s)) git_short _ hloop
    · have hp : (gitlabLib (pyStrip s)).getfile ((gitlabLib (pyStrip s)).projectId git_short)
          pipelineGitPath "master" = .invalid := by
        rcases h with h | h
        · exact absurd h hex
        · exact h
      have hno : ∀ e, e ∈ ENVS → (gitlabLib (pyStrip s)).getfile
          ((gitlabLib (pyStrip s)).projectId git_short) (gitAppPath e) "master" ≠ .invalid :=
        fun e he hinv => hex ⟨e, he, hinv⟩
      obtain ⟨acc, hacc⟩ := gitEnvLoop_ok_of_no_invalid (gitlabLib (pyStrip s))
        ((gitlabLib (pyStrip s)).projectId git_short) ENVS [] hno
      refine ⟨pipelineGitPath, Or.inr ⟨rfl, hp⟩, ?_⟩
      rw [hres, gitMain_fst_loop_ok (gitlabLib (pyStrip s)) git_short acc hacc]
      exact gitPipelineStep_fst_invalid (gitlabLib (pyStrip s))
        ((gitlabLib (pyStrip s)).projectId git_short) acc hp

/-- Witness for C5: a directory with an invalid application-master-dev.json
and a server with an invalid application-master-stage.json each end in the
templated SystemExit naming the offending file. -/
theorem claim5_witness :
    (∃ name, ((∃ e, e ∈ ENVS ∧ name = appFileName e ∧
          fsDevInvalid (pathJoin "d" (appFileName e)) = .invalid) ∨
        (name = pathJoin "d" "pipeline.json" ∧
          fsDevInvalid (pathJoin "d" "pipeline.json") = .invalid)) ∧
      process_runway_configs fsDevInvalid "d" =
        .error (.systemExit (JSON_ERROR_MSG name))) ∧
    (∃ name, ((∃ e, e ∈ ENVS ∧ name = gitAppPath e ∧
          ((fun _ => invalidStageServer) (pyStrip " secret\n") : GitlabServer).getfile
            (((fun _ => invalidStageServer) (pyStrip " secret\n") : GitlabServer).projectId
              "grp/app") (gitAppPath e) "master" = .invalid) ∨
        (name = pipelineGitPath ∧
          ((fun _ => invalidStageServer) (pyStrip " secret\n") : GitlabServer).getfile
            (((fun _ => invalidStageServer) (pyStrip " secret\n") : GitlabServer).projectId
              "grp/app") pipelineGitPath "master" = .invalid)) ∧
      (process_git_configs (fun _ => invalidStageServer) "grp/app" "token.txt"
        tokenOkRead).result = .error (.systemExit (JSON_ERROR_MSG name))) :=
  ⟨(claim5_invalid_json_fatal (fun _ => invalidStageServer) "grp/app" "token.txt" " secret\n"
      tokenOkRead fsDevInvalid "d").1 (Or.inl ⟨"dev", by decide, rfl⟩),
   (claim5_invalid_json_fatal (fun _ => invalidStageServer) "grp/app" "token.txt" " secret\n"
      tokenOkRead fsDevInvalid "d").2 rfl (Or.inl ⟨"stage", by decide, rfl⟩)⟩
